import Mathlib

/-!
Verification of the filtering/aggregation core of the smart real-estate
dashboard (src/real_estate_dashboard/app.py).

The script manipulates a pandas DataFrame whose numeric cells are floats
that may be NaN.  We embed a numeric cell as `PFloat`: either `nan` or an
exact rational value.  Raw CSV cells (before `pd.to_numeric(errors="coerce")`)
are embedded as `Cell`: either a numeric value or non-numeric junk text.
The natural logarithm used for the derived `log_price` column is the real
`Real.log`, so that column lives in `Option ℝ` (`none` embeds a float NaN).
-/

/-- A pandas float cell: NaN or an exact numeric value. -/
inductive PFloat where
  | nan : PFloat
  | val (q : ℚ) : PFloat
deriving DecidableEq

/-- A raw CSV cell prior to numeric coercion: a number or non-numeric text. -/
inductive Cell where
  | num (q : ℚ) : Cell
  | junk (s : String) : Cell
deriving DecidableEq

/-- `pd.to_numeric(col, errors="coerce")` on one cell: junk becomes NaN. -/
def toNum : Cell → PFloat
  | Cell.num q => PFloat.val q
  | Cell.junk _ => PFloat.nan

/-- One raw CSV row of the input file (columns used by the script). -/
structure RawRow where
  ad_id : String
  city : String
  type : String
  rent : String
  furnished : String
  price : Cell
  area : Cell
  bedrooms : Cell
  bathrooms : Cell
  level : Cell
deriving DecidableEq

/-- NaN-propagating addition, as in `df["bedrooms"] + df["bathrooms"]`. -/
def pfAdd : PFloat → PFloat → PFloat
  | PFloat.val a, PFloat.val b => PFloat.val (a + b)
  | _, _ => PFloat.nan

/-- NaN-propagating division, as in `df["price"] / df["area"]`. -/
def pfDiv : PFloat → PFloat → PFloat
  | PFloat.val a, PFloat.val b => PFloat.val (a / b)
  | _, _ => PFloat.nan

/-- `np.log1p` on a pandas float: natural log of `1 + x`, NaN-propagating
(`none` embeds NaN). -/
noncomputable def pfLog1p : PFloat → Option ℝ
  | PFloat.val q => some (Real.log (1 + (q : ℝ)))
  | PFloat.nan => none

/-- One row of the working DataFrame after `load_data`, including the three
derived columns. -/
structure Listing where
  ad_id : String
  city : String
  type : String
  rent : String
  furnished : String
  price : PFloat
  area : PFloat
  bedrooms : PFloat
  bathrooms : PFloat
  level : PFloat
  rooms : PFloat
  price_per_m2 : PFloat
  log_price : Option ℝ

/-- The DataFrame row built from a raw row by `load_data`: the five numeric
columns coerced, plus `rooms = bedrooms + bathrooms`,
`price_per_m2 = price / area` and `log_price = log1p(price)`. -/
noncomputable def mkListing (r : RawRow) : Listing :=
  ⟨r.ad_id, r.city, r.type, r.rent, r.furnished,
   toNum r.price, toNum r.area, toNum r.bedrooms, toNum r.bathrooms, toNum r.level,
   pfAdd (toNum r.bedrooms) (toNum r.bathrooms),
   pfDiv (toNum r.price) (toNum r.area),
   pfLog1p (toNum r.price)⟩

/-- The per-row step of `load_data`: `df.dropna(subset=["price", "area"])`
keeps a row exactly when both coerced values are non-NaN. -/
noncomputable def loadKeep (r : RawRow) : Option Listing :=
  if toNum r.price ≠ PFloat.nan ∧ toNum r.area ≠ PFloat.nan then some (mkListing r)
  else none

/-- `load_data`: coerce the numeric columns, drop rows with missing price or
area, compute the derived columns. -/
noncomputable def load_data (rows : List RawRow) : List Listing :=
  rows.filterMap loadKeep

/-- The sidebar selection state: an allowed set per categorical column and an
inclusive range per numeric column. -/
structure FilterSpec where
  cities : List String
  types : List String
  rents : List String
  furns : List String
  priceLo : ℚ
  priceHi : ℚ
  areaLo : ℚ
  areaHi : ℚ
  bedLo : ℚ
  bedHi : ℚ
  bathLo : ℚ
  bathHi : ℚ

/-- `Series.between(lo, hi)` on one cell: inclusive on both ends, false on
NaN (any comparison with NaN is false in pandas). -/
def pfBetween : PFloat → ℚ → ℚ → Bool
  | PFloat.nan, _, _ => false
  | PFloat.val v, lo, hi => decide (lo ≤ v) && decide (v ≤ hi)

/-- The boolean mask of the `df_filtered` expression for one row: conjunction
of the four `isin` tests and the four `between` tests. -/
def passes (S : FilterSpec) (l : Listing) : Bool :=
  decide (l.city ∈ S.cities) && decide (l.type ∈ S.types) &&
  decide (l.rent ∈ S.rents) && decide (l.furnished ∈ S.furns) &&
  pfBetween l.price S.priceLo S.priceHi && pfBetween l.area S.areaLo S.areaHi &&
  pfBetween l.bedrooms S.bedLo S.bedHi && pfBetween l.bathrooms S.bathLo S.bathHi

/-- `df_filtered`: boolean-mask filtering of the table. -/
def filterListings (T : List Listing) (S : FilterSpec) : List Listing :=
  T.filter (fun l => passes S l)

/-- The spec-side clause for a numeric dimension: the value exists and lies
within the inclusive range. -/
def pfInRange (x : PFloat) (lo hi : ℚ) : Prop :=
  ∃ v : ℚ, x = PFloat.val v ∧ lo ≤ v ∧ v ≤ hi

/-- The spec-side pass predicate, written from the specification's words: the
categorical values are members of the allowed sets and the numeric values lie
within the inclusive ranges. -/
def specPasses (S : FilterSpec) (l : Listing) : Prop :=
  l.city ∈ S.cities ∧ l.type ∈ S.types ∧ l.rent ∈ S.rents ∧ l.furnished ∈ S.furns ∧
  pfInRange l.price S.priceLo S.priceHi ∧ pfInRange l.area S.areaLo S.areaHi ∧
  pfInRange l.bedrooms S.bedLo S.bedHi ∧ pfInRange l.bathrooms S.bathLo S.bathHi

theorem pfBetween_iff (x : PFloat) (lo hi : ℚ) :
    pfBetween x lo hi = true ↔ pfInRange x lo hi := by
  cases x <;> simp [pfBetween, pfInRange]

theorem passes_iff (S : FilterSpec) (l : Listing) :
    passes S l = true ↔ specPasses S l := by
  simp only [passes, specPasses, Bool.and_eq_true, decide_eq_true_eq, pfBetween_iff]
  tauto

/-- Claim C1: a Listing appears in `filter(T, S)` iff it is in `T`, its city,
type, listing kind and furnished values are members of the corresponding
allowed sets, and its price, area, bedrooms and bathrooms each lie within the
corresponding inclusive range (soundness and completeness of the filter). -/
theorem filter_sound_complete (T : List Listing) (S : FilterSpec) (l : Listing) :
    l ∈ filterListings T S ↔ l ∈ T ∧ specPasses S l := by
  rw [filterListings, List.mem_filter, passes_iff]

/-- A non-NaN pandas float viewed as `Option ℚ` (`skipna` keeps these). -/
def pfToQ : PFloat → Option ℚ
  | PFloat.nan => none
  | PFloat.val q => some q

/-- `Series.mean()` with pandas defaults: skip NaN; the mean of an empty or
all-NaN column is the float NaN. -/
def colMean (xs : List PFloat) : PFloat :=
  let vs := xs.filterMap pfToQ
  if vs.length = 0 then PFloat.nan else PFloat.val (vs.sum / (vs.length : ℚ))

/-- Stable insertion of `x` into a list sorted ascending on `key`: `x` goes in
front of the first element whose key is not smaller. -/
def ins {α κ : Type} [LinearOrder κ] (key : α → κ) (x : α) : List α → List α
  | [] => [x]
  | y :: ys => if key y < key x then y :: ins key x ys else x :: y :: ys

/-- Stable insertion sort ascending on `key` (numpy's sort is stable on the
small arrays appearing here, and pandas sorts group keys with it). -/
def isort {α κ : Type} [LinearOrder κ] (key : α → κ) : List α → List α
  | [] => []
  | x :: xs => ins key x (isort key xs)

/-- `Series.median()` with pandas defaults: skip NaN, sort, take the middle
element (odd count) or the mean of the two middle elements (even count); NaN
on an empty or all-NaN column. -/
def colMedian (xs : List PFloat) : PFloat :=
  let vs := isort (fun q : ℚ => q) (xs.filterMap pfToQ)
  if vs.length = 0 then PFloat.nan
  else if vs.length % 2 = 1 then PFloat.val (vs.getD (vs.length / 2) 0)
  else PFloat.val ((vs.getD (vs.length / 2 - 1) 0 + vs.getD (vs.length / 2) 0) / 2)

/-- `comp_df = df_filtered[df_filtered["ad_id"].isin(compare_ids)]`: the rows
of the view whose id is among the selected ids, in view order. -/
def resolveComparison (view : List Listing) (ids : List String) : List Listing :=
  view.filter (fun l => decide (l.ad_id ∈ ids))

/-- What the compare tab renders: the informational message, or a comparison
table together with optional radar-chart data. -/
inductive CompareOut where
  | info : CompareOut
  | shown (table : List Listing) (radar : Option (List (List PFloat))) : CompareOut

/-- The numeric vector of one radar trace: `r=[row[c] for c in radar_cols]`
with `radar_cols = ["price", "area", "bedrooms", "bathrooms", "rooms"]`. -/
def radarRow (l : Listing) : List PFloat :=
  [l.price, l.area, l.bedrooms, l.bathrooms, l.rooms]

/-- The compare tab: the info message when fewer than two ids are selected;
otherwise the resolved comparison table, with radar data exactly when at most
five ids are selected. -/
def compareTab (view : List Listing) (ids : List String) : CompareOut :=
  if ids.length < 2 then CompareOut.info
  else
    CompareOut.shown (resolveComparison view ids)
      (if ids.length ≤ 5 then some ((resolveComparison view ids).map radarRow) else none)

/-! ### Concrete inputs used by counterexamples and witnesses -/

/-- A well-formed raw row with id `"A"` and all numeric cells numeric. -/
def rowA : RawRow :=
  ⟨"A", "cairo", "apt", "rent", "yes", Cell.num 100, Cell.num 50, Cell.num 2,
   Cell.num 1, Cell.num 3⟩

/-- A well-formed raw row with id `"B"`. -/
def rowB : RawRow :=
  ⟨"B", "giza", "villa", "sale", "no", Cell.num 200, Cell.num 80, Cell.num 4,
   Cell.num 2, Cell.num 1⟩

/-- The listing loaded from `rowA`. -/
noncomputable def listingA : Listing := mkListing rowA

/-- The listing loaded from `rowB`. -/
noncomputable def listingB : Listing := mkListing rowB

/-- A one-listing view. -/
noncomputable def vA : List Listing := [listingA]

/-- A view holding listing `"B"` before listing `"A"`. -/
noncomputable def vBA : List Listing := [listingB, listingA]

/-- A spec whose allowed city set is empty, so that it filters everything
out. -/
def emptySpec : FilterSpec :=
  ⟨[], ["apt"], ["rent"], ["yes"], 0, 1000, 0, 1000, 0, 10, 0, 10⟩

/-- A listing of type `"c"` with price 100. -/
def lC : Listing :=
  ⟨"C1", "x", "c", "rent", "yes", PFloat.val 100, PFloat.val 50, PFloat.val 2,
   PFloat.val 1, PFloat.val 0, PFloat.val 3, PFloat.val 2, none⟩

/-- A listing of type `"a"` with price 100. -/
def lA2 : Listing :=
  ⟨"A1", "x", "a", "rent", "yes", PFloat.val 100, PFloat.val 50, PFloat.val 2,
   PFloat.val 1, PFloat.val 0, PFloat.val 3, PFloat.val 2, none⟩

/-- A listing of type `"b"` with price 100. -/
def lB2 : Listing :=
  ⟨"B1", "x", "b", "rent", "yes", PFloat.val 100, PFloat.val 50, PFloat.val 2,
   PFloat.val 1, PFloat.val 0, PFloat.val 3, PFloat.val 2, none⟩

/-- A view whose types are first encountered in the order `c, a, b`, all
with equal prices. -/
def vGrp : List Listing := [lC, lA2, lB2]

/-- A raw row whose `level` cell is non-numeric but whose other numeric cells
are fine. -/
def rowL : RawRow :=
  ⟨"L", "cairo", "apt", "rent", "yes", Cell.num 100, Cell.num 50, Cell.num 2,
   Cell.num 1, Cell.junk "ground"⟩

/-- A raw row whose `bedrooms` cell is non-numeric but whose price and area
are fine. -/
def rowJ : RawRow :=
  ⟨"J", "giza", "apt", "rent", "no", Cell.num 80, Cell.num 40, Cell.junk "two",
   Cell.num 1, Cell.num 3⟩

/-- Claim C2, counterexample: with the view holding listing `"B"` before
listing `"A"` and the ids given in the order `["A", "B"]`, the resolved
sequence comes out in view order `["B", "A"]`, not in the order the ids were
given — `isin`-mask filtering keeps DataFrame row order. -/
theorem resolveComparison_order_cex :
    (resolveComparison vBA ["A", "B"]).map (fun l => l.ad_id) = ["B", "A"] ∧
    (["B", "A"] : List String) ≠ ["A", "B"] :=
  ⟨rfl, by decide⟩

/-- Claim C2 as amended: `resolveComparison(view, ids)` returns the listings
of the view whose id is among the given ids, in the order they appear in the
view (a sublist of the view), and any id not present in the view is silently
skipped — membership in the result requires nothing of absent ids and no
error is possible (the function is total). -/
theorem resolveComparison_view_order (view : List Listing) (ids : List String) :
    List.Sublist (resolveComparison view ids) view ∧
    (∀ l : Listing, l ∈ resolveComparison view ids ↔ l ∈ view ∧ l.ad_id ∈ ids) := by
  constructor
  · exact List.filter_sublist view
  · intro l
    rw [resolveComparison, List.mem_filter]
    simp

/-- Claim C3, counterexample: `emptySpec` filters everything out of the
one-listing table, and the mean and median of the resulting empty view are
the float NaN (`PFloat.nan`) — the code has no empty-view branch, so no
"no data" sentinel is returned and the KPI strings show `nan`.  This refutes
the claim that mean and median over an empty view never return NaN. -/
theorem mean_empty_nan_cex :
    filterListings [listingA] emptySpec = [] ∧
    colMean ((filterListings [listingA] emptySpec).map (fun l => l.price)) = PFloat.nan ∧
    colMedian ((filterListings [listingA] emptySpec).map (fun l => l.area)) = PFloat.nan :=
  ⟨rfl, rfl, rfl⟩

/-- Claim C3 as amended: mean and median applied to an empty FilteredView
return the float NaN for every field; they never throw (both reducers are
total functions) but there is no distinct "no data" sentinel. -/
theorem mean_median_empty_nan (view : List Listing) (f : Listing → PFloat)
    (h : view = []) :
    colMean (view.map f) = PFloat.nan ∧ colMedian (view.map f) = PFloat.nan := by
  subst h
  exact ⟨rfl, rfl⟩

/-- Witness for the amended Claim C3 at the concrete empty view produced by
`emptySpec`. -/
theorem mean_median_empty_nan_w :
    colMean ((filterListings [listingA] emptySpec).map (fun l => l.price)) = PFloat.nan ∧
    colMedian ((filterListings [listingA] emptySpec).map (fun l => l.price)) = PFloat.nan :=
  mean_median_empty_nan (filterListings [listingA] emptySpec) (fun l => l.price) rfl

/-- Claim C4, counterexample: with ids `["A", "X"]` where `"X"` is not in the
view, only one id resolves, yet the compare tab does not show the
informational state: the gate `len(compare_ids) < 2` counts selected ids, so
a one-row comparison table and radar data are produced.  This refutes the
claim that the comparison is presented only when at least two ids resolve. -/
theorem compare_gate_cex :
    compareTab vA ["A", "X"] = CompareOut.shown [listingA] (some [radarRow listingA]) ∧
    (resolveComparison vA ["A", "X"]).map (fun l => l.ad_id) = ["A"] ∧
    compareTab vA ["A", "X"] ≠ CompareOut.info :=
  ⟨rfl, rfl, fun h => nomatch h⟩

/-- Claim C4 as amended: the informational insufficient-selection state is
shown exactly when fewer than two ids are selected, regardless of how many of
them resolve against the view; with two or more selected ids a comparison
table is always produced, even if fewer than two ids resolve. -/
theorem compare_info_iff (view : List Listing) (ids : List String) :
    compareTab view ids = CompareOut.info ↔ ids.length < 2 := by
  unfold compareTab
  by_cases h : ids.length < 2
  · simp [h]
  · simp [h]

/-- The numeric value under a non-NaN pandas float (0 on NaN; used only on
lists already known to be NaN-free). -/
def pfVal : PFloat → ℚ
  | PFloat.nan => 0
  | PFloat.val q => q

/-- The `(group, mean)` pairs of
`df_filtered.groupby("type")["price"].mean()`: group keys are the distinct
`type` values sorted ascending (pandas `groupby` sorts keys), each paired with
the NaN-skipping mean of the group's prices. -/
def groupPairs (view : List Listing) : List (String × PFloat) :=
  (isort (fun s : String => s) (view.map (fun l => l.type)).dedup).map
    (fun k => (k, colMean ((view.filter (fun l => decide (l.type = k))).map (fun l => l.price))))

/-- `groupby("type")["price"].mean().sort_values(ascending=False)`: pandas
implements the descending sort by reversing the ascending argsort (stable for
the small arrays here), and places NaN means last. -/
def groupMean (view : List Listing) : List (String × PFloat) :=
  (isort (fun p : String × PFloat => pfVal p.2)
      ((groupPairs view).filter (fun p => decide (p.2 ≠ PFloat.nan)))).reverse ++
    (groupPairs view).filter (fun p => !(decide (p.2 ≠ PFloat.nan)))

/-- The relation established by the stable ascending sort on `key`: strictly
smaller key, or equal keys and the relation `S` the input list was pairwise
ordered by. -/
def keyRel {α κ : Type} [LinearOrder κ] (key : α → κ) (S : α → α → Prop)
    (a b : α) : Prop :=
  key a < key b ∨ (key a = key b ∧ S a b)

theorem mem_ins {α κ : Type} [LinearOrder κ] (key : α → κ) (x z : α)
    (ys : List α) : z ∈ ins key x ys ↔ z = x ∨ z ∈ ys := by
  induction ys with
  | nil => simp [ins]
  | cons y ys ih =>
    rw [ins]
    by_cases h : key y < key x
    · rw [if_pos h]
      simp only [List.mem_cons, ih]
      tauto
    · rw [if_neg h]
      simp only [List.mem_cons]

theorem mem_isort {α κ : Type} [LinearOrder κ] (key : α → κ) (z : α)
    (l : List α) : z ∈ isort key l ↔ z ∈ l := by
  induction l with
  | nil => simp [isort]
  | cons x xs ih =>
    rw [isort, mem_ins]
    simp only [List.mem_cons, ih]

theorem pairwise_ins {α κ : Type} [LinearOrder κ] {key : α → κ}
    {S : α → α → Prop} {x : α} {ys : List α}
    (hp : List.Pairwise (keyRel key S) ys) (hS : ∀ y ∈ ys, S x y) :
    List.Pairwise (keyRel key S) (ins key x ys) := by
  induction ys with
  | nil => simp [ins]
  | cons y ys ih =>
    rw [List.pairwise_cons] at hp
    obtain ⟨hy, hys⟩ := hp
    rw [ins]
    by_cases h : key y < key x
    · rw [if_pos h, List.pairwise_cons]
      refine ⟨?_, ih hys (fun y2 hy2 => hS y2 (List.mem_cons_of_mem y hy2))⟩
      intro z hz
      rcases (mem_ins key x z ys).mp hz with rfl | hz
      · exact Or.inl h
      · exact hy z hz
    · rw [if_neg h, List.pairwise_cons]
      have hxy : key x ≤ key y := not_lt.mp h
      refine ⟨?_, List.pairwise_cons.mpr ⟨hy, hys⟩⟩
      intro z hz
      rcases List.mem_cons.mp hz with rfl | hz
      · rcases lt_or_eq_of_le hxy with hlt | heq
        · exact Or.inl hlt
        · exact Or.inr ⟨heq, hS z (List.mem_cons_self z ys)⟩
      · rcases hy z hz with hlt | ⟨heq, _⟩
        · exact Or.inl (lt_of_le_of_lt hxy hlt)
        · rcases lt_or_eq_of_le hxy with hlt2 | heq2
          · exact Or.inl (heq ▸ hlt2)
          · exact Or.inr ⟨heq2.trans heq, hS z (List.mem_cons_of_mem y hz)⟩

theorem pairwise_isort {α κ : Type} [LinearOrder κ] (key : α → κ)
    {S : α → α → Prop} {l : List α} (hp : List.Pairwise S l) :
    List.Pairwise (keyRel key S) (isort key l) := by
  induction l with
  | nil => simp [isort]
  | cons x xs ih =>
    rw [List.pairwise_cons] at hp
    rw [isort]
    exact pairwise_ins (ih hp.2) (fun y hy => hp.1 y ((mem_isort key y xs).mp hy))

theorem colMean_ne_nan {xs : List PFloat} {x : PFloat} (hx : x ∈ xs)
    (hnx : x ≠ PFloat.nan) : colMean xs ≠ PFloat.nan := by
  obtain ⟨q, rfl⟩ : ∃ q, x = PFloat.val q := by
    cases x
    · exact absurd rfl hnx
    · exact ⟨_, rfl⟩
  have hq : q ∈ xs.filterMap pfToQ := List.mem_filterMap.mpr ⟨PFloat.val q, hx, rfl⟩
  have hlen : (xs.filterMap pfToQ).length ≠ 0 := by
    intro h0
    rw [List.length_eq_zero] at h0
    rw [h0] at hq
    exact absurd hq (List.not_mem_nil q)
  rw [colMean]
  simp only [if_neg hlen]
  intro h
  exact PFloat.noConfusion h

theorem groupPairs_ne_nan {view : List Listing}
    (h : ∀ l ∈ view, l.price ≠ PFloat.nan) :
    ∀ p ∈ groupPairs view, p.2 ≠ PFloat.nan := by
  intro p hp
  rw [groupPairs, List.mem_map] at hp
  obtain ⟨k, hk, rfl⟩ := hp
  rw [mem_isort, List.mem_dedup, List.mem_map] at hk
  obtain ⟨l, hl, rfl⟩ := hk
  have hmem : l ∈ view.filter (fun l2 => decide (l2.type = l.type)) :=
    List.mem_filter.mpr ⟨hl, by simp⟩
  exact colMean_ne_nan (List.mem_map_of_mem (fun l2 => l2.price) hmem) (h l hl)

theorem groupPairs_key_sorted (view : List Listing) :
    List.Pairwise (fun p q : String × PFloat => p.1 < q.1) (groupPairs view) := by
  rw [groupPairs]
  rw [List.pairwise_map]
  have hnd : List.Pairwise (fun a b : String => a ≠ b)
      (view.map (fun l => l.type)).dedup := List.nodup_dedup _
  have := pairwise_isort (fun s : String => s) hnd
  refine this.imp ?_
  intro a b hab
  rcases hab with hlt | ⟨heq, hne⟩
  · exact hlt
  · exact absurd heq hne

/-- Claim C5, counterexample: three listings whose types are first
encountered in the order `c, a, b`, all with price 100, so all three group
means are equal (100).  `groupby` sorts the keys to `[a, b, c]` and the
descending value sort reverses that to `[c, b, a]` — not the
first-encountered order `[c, a, b]` the claim predicts for ties. -/
theorem groupMean_tie_cex :
    (groupMean vGrp).map (fun p => p.1) = ["c", "b", "a"] ∧
    (groupMean vGrp).map (fun p => p.2) =
      [PFloat.val 100, PFloat.val 100, PFloat.val 100] ∧
    (["c", "b", "a"] : List String) ≠ ["c", "a", "b"] := by
  have hfa : vGrp.filter (fun l => decide (l.type = "a")) = [lA2] := rfl
  have hfb : vGrp.filter (fun l => decide (l.type = "b")) = [lB2] := rfl
  have hfc : vGrp.filter (fun l => decide (l.type = "c")) = [lC] := rfl
  have hgp : groupPairs vGrp =
      [("a", PFloat.val 100), ("b", PFloat.val 100), ("c", PFloat.val 100)] := by
    rw [groupPairs]
    rw [show vGrp.map (fun l => l.type) = ["c", "a", "b"] from rfl]
    rw [show (["c", "a", "b"] : List String).dedup = ["c", "a", "b"] by decide]
    rw [show isort (fun s : String => s) ["c", "a", "b"] = ["a", "b", "c"] by
      simp +decide only [isort, ins, String.lt_iff_toList_lt]]
    rw [List.map_cons, List.map_cons, List.map_cons, List.map_nil]
    rw [hfa, hfb, hfc]
    simp [colMean, pfToQ, lA2, lB2, lC]
  refine ⟨?_, ?_, by decide⟩
  · rw [groupMean, hgp]; decide
  · rw [groupMean, hgp]; decide

/-- Claim C5 as amended: on a view with no missing prices, `groupMean` is
sorted descending by mean, but ties between equal means appear in reverse
alphabetical group order (the keys are sorted ascending by `groupby` and the
descending value sort reverses equal runs), not in first-encountered order;
re-running on the same input yields an identical result (the function is
pure, so this holds definitionally). -/
theorem groupMean_desc_tiebreak (view : List Listing)
    (h : ∀ l ∈ view, l.price ≠ PFloat.nan) :
    List.Pairwise
      (fun p q : String × PFloat =>
        pfVal q.2 < pfVal p.2 ∨ (pfVal q.2 = pfVal p.2 ∧ q.1 < p.1))
      (groupMean view) ∧
    groupMean view = groupMean view := by
  refine ⟨?_, rfl⟩
  have hall := groupPairs_ne_nan h
  have hf1 : (groupPairs view).filter (fun p => decide (p.2 ≠ PFloat.nan)) =
      groupPairs view :=
    List.filter_eq_self.mpr (fun p hp => by simp [hall p hp])
  have hf2 : (groupPairs view).filter (fun p => !(decide (p.2 ≠ PFloat.nan))) =
      [] :=
    List.filter_eq_nil_iff.mpr (fun p hp => by simp [hall p hp])
  rw [groupMean, hf1, hf2, List.append_nil]
  rw [List.pairwise_reverse]
  have hmain := pairwise_isort (fun p : String × PFloat => pfVal p.2)
    (groupPairs_key_sorted view)
  exact hmain.imp (fun hab => hab)

/-- Witness for the amended Claim C5 at the concrete three-group view. -/
theorem groupMean_desc_tiebreak_w :
    List.Pairwise
      (fun p q : String × PFloat =>
        pfVal q.2 < pfVal p.2 ∨ (pfVal q.2 = pfVal p.2 ∧ q.1 < p.1))
      (groupMean vGrp) ∧
    groupMean vGrp = groupMean vGrp :=
  groupMean_desc_tiebreak vGrp (by decide)

/-- Claim C9: the radar projection gate counts selected ids, not resolved
listings — for more than five selected ids the compare tab still shows the
comparison table but produces no radar data, whatever the view contains. -/
theorem radar_gate_on_ids (view : List Listing) (ids : List String)
    (h : 5 < ids.length) :
    compareTab view ids = CompareOut.shown (resolveComparison view ids) none := by
  unfold compareTab
  rw [if_neg (by omega), if_neg (by omega)]

/-- Witness for Claim C9: six ids of which only one resolves; the table is
produced (with a single row) and the radar data is `none`. -/
theorem radar_gate_on_ids_w :
    compareTab vA ["A", "X1", "X2", "X3", "X4", "X5"] =
      CompareOut.shown (resolveComparison vA ["A", "X1", "X2", "X3", "X4", "X5"]) none ∧
    (resolveComparison vA ["A", "X1", "X2", "X3", "X4", "X5"]).map (fun l => l.ad_id) = ["A"] :=
  ⟨radar_gate_on_ids vA ["A", "X1", "X2", "X3", "X4", "X5"] (by decide), rfl⟩

theorem pf_ne_nan {x : PFloat} (h : x ≠ PFloat.nan) : ∃ q : ℚ, x = PFloat.val q := by
  cases x
  · exact absurd rfl h
  · exact ⟨_, rfl⟩

theorem load_mem_shape {rows : List RawRow} {l : Listing} (h : l ∈ load_data rows) :
    ∃ r : RawRow, l = mkListing r ∧ toNum r.price ≠ PFloat.nan ∧
      toNum r.area ≠ PFloat.nan := by
  rw [load_data, List.mem_filterMap] at h
  obtain ⟨r, _, hk⟩ := h
  rw [loadKeep] at hk
  by_cases hc : toNum r.price ≠ PFloat.nan ∧ toNum r.area ≠ PFloat.nan
  · rw [if_pos hc] at hk
    exact ⟨r, (Option.some_inj.mp hk).symm, hc.1, hc.2⟩
  · rw [if_neg hc] at hk
    exact absurd hk (Option.noConfusion)

/-- Claim C7: every row surviving `load_data` has non-missing price and area,
and its derived fields satisfy `rooms = bedrooms + bathrooms`,
`price_per_m2 = price / area` (NaN-propagating pandas arithmetic) and
`log_price = log(1 + price)`. -/
theorem load_data_invariants (rows : List RawRow) (l : Listing)
    (h : l ∈ load_data rows) :
    l.price ≠ PFloat.nan ∧ l.area ≠ PFloat.nan ∧
    l.rooms = pfAdd l.bedrooms l.bathrooms ∧
    l.price_per_m2 = pfDiv l.price l.area ∧
    (∃ p : ℚ, l.price = PFloat.val p ∧ l.log_price = some (Real.log (1 + (p : ℝ)))) := by
  obtain ⟨r, rfl, hp, ha⟩ := load_mem_shape h
  refine ⟨hp, ha, rfl, rfl, ?_⟩
  obtain ⟨p, hpv⟩ := pf_ne_nan hp
  refine ⟨p, ?_, ?_⟩
  · exact hpv
  · show pfLog1p (toNum r.price) = _
    rw [hpv, pfLog1p]

/-- Witness for Claim C7 at the one-row table `[rowA]`. -/
theorem load_data_invariants_w :
    listingA.price ≠ PFloat.nan ∧ listingA.area ≠ PFloat.nan ∧
    listingA.rooms = pfAdd listingA.bedrooms listingA.bathrooms ∧
    listingA.price_per_m2 = pfDiv listingA.price listingA.area ∧
    (∃ p : ℚ, listingA.price = PFloat.val p ∧
      listingA.log_price = some (Real.log (1 + (p : ℝ)))) :=
  load_data_invariants [rowA] listingA
    (List.mem_filterMap.mpr ⟨rowA, List.mem_cons_self rowA [], rfl⟩)

/-- Claim C10, counterexample: a row whose `level` cell fails numeric
coercion (but whose bedrooms and bathrooms are numeric) is kept by
`load_data`, and its derived `rooms` field is the non-missing value 3 — not
missing as the claim asserts for every row with a failed coercion among
bedrooms, bathrooms or level. -/
theorem level_junk_rooms_cex :
    (load_data [rowL]).map (fun l => l.rooms) = [PFloat.val 3] ∧
    toNum rowL.level = PFloat.nan ∧
    PFloat.val 3 ≠ PFloat.nan := by
  refine ⟨?_, rfl, by decide⟩
  simp [load_data, loadKeep, mkListing, toNum, rowL, pfAdd]
  norm_num

/-- Claim C10 as amended: a row whose bedrooms, bathrooms or level cell fails
numeric coercion is still kept by `load_data` as long as price and area
coerce (only missing price or area drops a row), and when the failed cell is
bedrooms or bathrooms the derived `rooms` field is missing, because
missingness propagates through `rooms = bedrooms + bathrooms`.  (A failed
`level` alone leaves `rooms` present, as the counterexample shows.) -/
theorem coercion_failure_kept (rows : List RawRow) (r : RawRow) (hr : r ∈ rows)
    (hp : toNum r.price ≠ PFloat.nan) (ha : toNum r.area ≠ PFloat.nan) :
    mkListing r ∈ load_data rows ∧
    ((toNum r.bedrooms = PFloat.nan ∨ toNum r.bathrooms = PFloat.nan) →
      (mkListing r).rooms = PFloat.nan) := by
  constructor
  · exact List.mem_filterMap.mpr ⟨r, hr, by rw [loadKeep, if_pos ⟨hp, ha⟩]⟩
  · intro hcase
    show pfAdd (toNum r.bedrooms) (toNum r.bathrooms) = PFloat.nan
    rcases hcase with hbed | hbath
    · rw [hbed]
      cases toNum r.bathrooms <;> rfl
    · rw [hbath]
      cases toNum r.bedrooms <;> rfl

/-- Witness for the amended Claim C10: a row with junk bedrooms is kept and
its `rooms` is NaN. -/
theorem coercion_failure_kept_w :
    mkListing rowJ ∈ load_data [rowJ] ∧
    ((toNum rowJ.bedrooms = PFloat.nan ∨ toNum rowJ.bathrooms = PFloat.nan) →
      (mkListing rowJ).rooms = PFloat.nan) :=
  coercion_failure_kept [rowJ] rowJ (List.mem_cons_self rowJ []) (by decide) (by decide)

/-- Serialization of one pandas float cell in `to_csv`: a numeric value
round-trips exactly, NaN is written as the empty cell (which `to_numeric`
coerces back to NaN). -/
def cellOf : PFloat → Cell
  | PFloat.nan => Cell.junk ""
  | PFloat.val q => Cell.num q

/-- One row of `df_filtered.to_csv(index=False)`: the raw columns of the
listing, serialized cell by cell.  The derived columns are also written to
the CSV, but `load_data` recomputes and overwrites them on reload, so they do
not appear in the reloaded row's inputs. -/
def exportRow (l : Listing) : RawRow :=
  ⟨l.ad_id, l.city, l.type, l.rent, l.furnished, cellOf l.price, cellOf l.area,
   cellOf l.bedrooms, cellOf l.bathrooms, cellOf l.level⟩

theorem toNum_cellOf (x : PFloat) : toNum (cellOf x) = x := by
  cases x <;> rfl

theorem loadKeep_export_of_mem {rows : List RawRow} {l : Listing}
    (h : l ∈ load_data rows) : loadKeep (exportRow l) = some l := by
  obtain ⟨r, rfl, hp, ha⟩ := load_mem_shape h
  have hcond : toNum (exportRow (mkListing r)).price ≠ PFloat.nan ∧
      toNum (exportRow (mkListing r)).area ≠ PFloat.nan := by
    constructor
    · show toNum (cellOf (toNum r.price)) ≠ PFloat.nan
      rw [toNum_cellOf]
      exact hp
    · show toNum (cellOf (toNum r.area)) ≠ PFloat.nan
      rw [toNum_cellOf]
      exact ha
  rw [loadKeep, if_pos hcond]
  show some (mkListing (exportRow (mkListing r))) = some (mkListing r)
  rw [mkListing, exportRow]
  simp only [mkListing, toNum_cellOf]

theorem load_map_export {v : List Listing}
    (h : ∀ l ∈ v, loadKeep (exportRow l) = some l) :
    load_data (v.map exportRow) = v := by
  induction v with
  | nil => rfl
  | cons l t ih =>
    rw [List.map_cons, load_data, List.filterMap_cons,
      h l (List.mem_cons_self l t)]
    rw [load_data] at ih
    rw [ih (fun l2 hl2 => h l2 (List.mem_cons_of_mem l hl2))]

/-- Claim C8: exporting a FilteredView to CSV and reloading it through
`load_data` reproduces the FilteredView exactly — here the round trip is
proved as exact equality (prices and areas are serialized exactly in this
rational model, and the derived columns are recomputed from them on reload),
which is within any floating-point tolerance, in particular 1e-9 relative. -/
theorem export_load_roundtrip (rows : List RawRow) (S : FilterSpec) :
    load_data ((filterListings (load_data rows) S).map exportRow) =
      filterListings (load_data rows) S := by
  apply load_map_export
  intro l hl
  exact loadKeep_export_of_mem (List.mem_filter.mp hl).1

/-- NaN-aware numeric read of a column cell for the correlation matrix. -/
noncomputable def pfToR : PFloat → Option ℝ
  | PFloat.nan => none
  | PFloat.val q => some (q : ℝ)

/-- Mean of a list of reals (0 on the empty list, never reached by the
correlation code path that uses it). -/
noncomputable def rmean (l : List ℝ) : ℝ := l.sum / l.length

/-- First components of a list of pairs. -/
def fsts (ps : List (ℝ × ℝ)) : List ℝ := ps.map (fun p => p.1)

/-- Second components of a list of pairs. -/
def snds (ps : List (ℝ × ℝ)) : List ℝ := ps.map (fun p => p.2)

/-- Sum of squared deviations from the mean. -/
noncomputable def sqdev (l : List ℝ) : ℝ := (l.map (fun x => (x - rmean l) ^ 2)).sum

/-- Sum of products of paired deviations from the two means. -/
noncomputable def codev (ps : List (ℝ × ℝ)) : ℝ :=
  (ps.map (fun p => (p.1 - rmean (fsts ps)) * (p.2 - rmean (snds ps)))).sum

/-- The Pearson coefficient pandas computes for one column pair: the pairwise
complete observations are given; NaN (embedded as `none`) results when there
are no observations or when a sample standard deviation vanishes — with one
observation the `n - 1` denominator makes the variance `0/0`, hence NaN. -/
noncomputable def pearson (ps : List (ℝ × ℝ)) : Option ℝ :=
  if ps.length = 0 then none
  else if Real.sqrt (sqdev (fsts ps) / ((ps.length : ℝ) - 1)) *
      Real.sqrt (sqdev (snds ps) / ((ps.length : ℝ) - 1)) = 0 then none
  else some ((codev ps / ((ps.length : ℝ) - 1)) /
    (Real.sqrt (sqdev (fsts ps) / ((ps.length : ℝ) - 1)) *
     Real.sqrt (sqdev (snds ps) / ((ps.length : ℝ) - 1))))

/-- The pairwise-complete observations of two columns over a view: rows where
either value is NaN are dropped for that pair (pandas `corr` semantics). -/
def pairsOf (view : List Listing) (f g : Listing → Option ℝ) : List (ℝ × ℝ) :=
  view.filterMap (fun l =>
    match f l, g l with
    | some a, some b => some (a, b)
    | _, _ => none)

/-- One entry of `df_filtered[corr_cols].corr()`. -/
noncomputable def corrEntry (view : List Listing) (f g : Listing → Option ℝ) :
    Option ℝ :=
  pearson (pairsOf view f g)

/-- The full correlation matrix over the given column readers. -/
noncomputable def corrMatrix (view : List Listing)
    (cols : List (Listing → Option ℝ)) : List (List (Option ℝ)) :=
  cols.map (fun f => cols.map (fun g => corrEntry view f g))

/-- The columns of the heatmap:
`corr_cols = ["log_price", "area", "bedrooms", "bathrooms", "rooms", "price_per_m2"]`. -/
noncomputable def corrCols : List (Listing → Option ℝ) :=
  [fun l => l.log_price, fun l => pfToR l.area, fun l => pfToR l.bedrooms,
   fun l => pfToR l.bathrooms, fun l => pfToR l.rooms, fun l => pfToR l.price_per_m2]

theorem fsts_swap (ps : List (ℝ × ℝ)) : fsts (ps.map Prod.swap) = snds ps := by
  simp [fsts, snds, List.map_map, Function.comp, Prod.swap]

theorem snds_swap (ps : List (ℝ × ℝ)) : snds (ps.map Prod.swap) = fsts ps := by
  simp [fsts, snds, List.map_map, Function.comp, Prod.swap]

theorem codev_swap (ps : List (ℝ × ℝ)) : codev (ps.map Prod.swap) = codev ps := by
  rw [codev, codev, fsts_swap, snds_swap, List.map_map]
  rw [show ((fun p : ℝ × ℝ => (p.1 - rmean (snds ps)) * (p.2 - rmean (fsts ps))) ∘
      Prod.swap) =
      (fun p : ℝ × ℝ => (p.1 - rmean (fsts ps)) * (p.2 - rmean (snds ps))) from
    funext (fun p => by simp [Function.comp, Prod.swap]; ring)]

theorem pearson_swap (ps : List (ℝ × ℝ)) :
    pearson (ps.map Prod.swap) = pearson ps := by
  rw [pearson, pearson, List.length_map, fsts_swap, snds_swap, codev_swap]
  set a := Real.sqrt (sqdev (fsts ps) / ((ps.length : ℝ) - 1)) with ha
  set b := Real.sqrt (sqdev (snds ps) / ((ps.length : ℝ) - 1)) with hb
  rw [mul_comm b a]

theorem pearson_single (p : ℝ × ℝ) : pearson [p] = none := by
  have hx : ∀ x : ℝ, sqdev [x] = 0 := by
    intro x
    simp [sqdev, rmean]
  rw [pearson]
  rw [if_neg (by norm_num)]
  rw [if_pos ?_]
  show Real.sqrt (sqdev (fsts [p]) / (((1 : ℕ) : ℝ) - 1)) *
      Real.sqrt (sqdev (snds [p]) / (((1 : ℕ) : ℝ) - 1)) = 0
  rw [show fsts [p] = [p.1] from rfl, show snds [p] = [p.2] from rfl, hx, hx]
  norm_num [Real.sqrt_zero]

theorem corrEntry_none_of_short {view : List Listing} {f g : Listing → Option ℝ}
    (h : view.length < 2) : corrEntry view f g = none := by
  have hle : (pairsOf view f g).length ≤ view.length :=
    List.length_filterMap_le _ _
  rcases Nat.lt_or_ge (pairsOf view f g).length 1 with h1 | h1
  · have h0 : (pairsOf view f g).length = 0 := by omega
    rw [corrEntry, pearson, if_pos h0]
  · have h2 : (pairsOf view f g).length = 1 := by omega
    obtain ⟨p, hp⟩ := List.length_eq_one.mp h2
    rw [corrEntry, hp]
    exact pearson_single p

theorem pairsOf_swap (view : List Listing) (f g : Listing → Option ℝ) :
    pairsOf view g f = (pairsOf view f g).map Prod.swap := by
  induction view with
  | nil => rfl
  | cons l t ih =>
    simp only [pairsOf, List.filterMap_cons] at ih ⊢
    rcases hf : f l with _ | a <;> rcases hg : g l with _ | b <;>
      simp [hf, hg, ih, Prod.swap]

theorem corrEntry_symm (view : List Listing) (f g : Listing → Option ℝ) :
    corrEntry view f g = corrEntry view g f := by
  rw [corrEntry, corrEntry, pairsOf_swap view f g, pearson_swap]

theorem corrMatrix_getD (view : List Listing) (cols : List (Listing → Option ℝ))
    (i j : ℕ) :
    ((corrMatrix view cols).getD i []).getD j none =
      match cols[i]?, cols[j]? with
      | some f, some g => corrEntry view f g
      | _, _ => none := by
  rw [corrMatrix, List.getD_eq_getElem?_getD, List.getD_eq_getElem?_getD,
    List.getElem?_map]
  cases hi : cols[i]? with
  | none => simp
  | some f =>
    simp only [Option.map_some', Option.getD_some, List.getElem?_map]
    cases hj : cols[j]? with
    | none => simp
    | some g => simp

/-- Claim C6: the correlation matrix is symmetric (entry `(i, j)` equals
entry `(j, i)` for all indices, out-of-range entries both reading as the
`none` default), and over a view with fewer than two rows every entry is
undefined — the float NaN, embedded as `none` — rather than an error (the
function is total). -/
theorem corrMatrix_symm_undef (view : List Listing)
    (cols : List (Listing → Option ℝ)) (i j : ℕ) :
    ((corrMatrix view cols).getD i []).getD j none =
      ((corrMatrix view cols).getD j []).getD i none ∧
    (view.length < 2 → ((corrMatrix view cols).getD i []).getD j none = none) := by
  constructor
  · rw [corrMatrix_getD, corrMatrix_getD]
    cases hi : cols[i]? with
    | none => cases hj : cols[j]? <;> rfl
    | some f =>
      cases hj : cols[j]? with
      | none => rfl
      | some g => exact corrEntry_symm view f g
  · intro hshort
    rw [corrMatrix_getD]
    cases hi : cols[i]? with
    | none => rfl
    | some f =>
      cases hj : cols[j]? with
      | none => rfl
      | some g => exact corrEntry_none_of_short hshort

/-- Witness for Claim C6: over the one-row view `[listingA]` the top-left
entry of the heatmap matrix is undefined. -/
theorem corrMatrix_symm_undef_w :
    ((corrMatrix vA corrCols).getD 0 []).getD 0 none = none :=
  (corrMatrix_symm_undef vA corrCols 0 0).2 (by decide)
